import Mathlib

/-
Verification of the AnkiConnect bulk-field-update scripts
(EnableAudioOnFlashcards.py and DisableBorderMapOnFlashcards.py).

The scripts run a single filter-then-update pass over data fetched from a
remote flashcard store via the AnkiConnect HTTP API.  We embed the remote
store as an explicit `Store` value, the API helper functions as pure
functions reading that store, and the per-note update loop as a function
threading the store and an oracle `fails : Int → Option String` saying
which update calls raise (carrying the exception message).
-/

namespace AnkiScripts

/-- One card of the remote store, as relevant to the scripts: the
`cardsInfo` payload exposes its identifier, its template ordinal `ord`,
its review `interval`, and a field snapshot taken from its owning note. -/
structure Card where
  cardId : Int
  noteId : Int
  ord : Nat
  interval : Int
deriving DecidableEq

/-- One note of the remote store, as exposed by `notesInfo`: identifier,
owning model name, field mapping (field name to current value, mirroring
the `fields` dict restricted to each entry's `value`), and the list of
owned card identifiers. -/
structure Note where
  noteId : Int
  modelName : String
  fields : List (String × String)
  cards : List Int
deriving DecidableEq

/-- The `cardsInfo` payload for one card: the card data together with the
field snapshot inherited from the owning note. -/
structure CardInfo where
  cardId : Int
  ord : Nat
  interval : Int
  fields : List (String × String)
deriving DecidableEq

/-- The configuration tuple of one run of the selective field updater.
`EnableAudioOnFlashcards.py` hardcodes one instance and
`DisableBorderMapOnFlashcards.py` another; see `enableAudioConfig` and
`disableBorderMapConfig` below. -/
structure Config where
  deckName : String
  modelName : String
  templateName : String
  intervalThreshold : Int
  fieldName : String
  newValue : String
deriving DecidableEq

/-- The remote store as seen through the five AnkiConnect actions the
scripts use, specialised to one run's deck and model: `modelTemplates`
holds the ordered template names of the configured model (`none` when the
model does not exist, in which case the remote reports an error),
`deckNoteIds` is the `findNotes` answer for the configured deck, and
`notes` and `cards` back `notesInfo` and `cardsInfo`. -/
structure Store where
  modelTemplates : Option (List String)
  deckNoteIds : List Int
  notes : List Note
  cards : List Card
deriving DecidableEq

/-! ## The API client (`invoke`, source lines 24-47) -/

/-- What the HTTP transport can do when `invoke` posts a request:
the connection is refused (`requests.exceptions.ConnectionError`), some
other `requests.exceptions.RequestException` is raised (non-2xx status
via `raise_for_status`, timeout, malformed JSON body), or a decoded
response `{error, result}` comes back, per the documented response shape
`{result: any, error: string|null}`. -/
inductive Transport (α : Type) where
  | connectionFailure
  | requestFailure (msg : String)
  | httpResponse (error : Option String) (result : α)
deriving DecidableEq

/-- The exceptions `invoke` can raise: the builtin `ConnectionError` it
raises on an unreachable endpoint, and the `RuntimeError` it raises both
for transport failures and for remote-reported errors. -/
inductive InvokeError where
  | connectionError (msg : String)
  | runtimeError (msg : String)
deriving DecidableEq

/-- Python truthiness of `result.get("error")` for a `string|null` field:
`None` and the empty string are falsy. -/
def pyTruthy : Option String → Bool
  | none => false
  | some s => decide (s ≠ "")

/-- The API client `invoke` (source lines 24-47): raises `ConnectionError`
when the endpoint is unreachable, re-raises any other transport failure as
`RuntimeError ("Request failed: " ++ msg)`, raises
`RuntimeError ("AnkiConnect error: " ++ e)` when the decoded response
carries a truthy `error`, and otherwise returns the `result` payload. -/
def invoke {α : Type} (t : Transport α) : Except InvokeError α :=
  match t with
  | .connectionFailure =>
      .error (.connectionError
        "Could not connect to AnkiConnect. Is Anki running with AnkiConnect addon installed?")
  | .requestFailure msg => .error (.runtimeError ("Request failed: " ++ msg))
  | .httpResponse err res =>
      if pyTruthy err then .error (.runtimeError ("AnkiConnect error: " ++ err.getD ""))
      else .ok res

/-! ## The derived fetch operations (source lines 49-67) -/

/-- Lookup of a field's current value in a note's field mapping, mirroring
`fields.get(name, {}).get("value")`: `none` when the field is absent. -/
def lookupField (fields : List (String × String)) (name : String) : Option String :=
  (fields.find? (fun p => decide (p.1 = name))).map (fun p => p.2)

/-- Resolution of a note identifier in the store, backing `notesInfo`. -/
def findNote (s : Store) (nid : Int) : Option Note :=
  s.notes.find? (fun n => decide (n.noteId = nid))

/-- Resolution of a card identifier in the store, backing `cardsInfo`. -/
def findCard (s : Store) (cid : Int) : Option Card :=
  s.cards.find? (fun c => decide (c.cardId = cid))

/-- The helper `find_notes` (source lines 49-52): the deck-scoped
`findNotes` query, answered by the store. -/
def find_notes (s : Store) : List Int :=
  s.deckNoteIds

/-- The helper `get_note_info` (source lines 54-57): `notesInfo` for a
sequence of note identifiers, one `Note` per resolvable identifier. -/
def get_note_info (s : Store) (ids : List Int) : List Note :=
  ids.filterMap (findNote s)

/-- The `cardsInfo` payload for one card identifier: the card's own data
with the field snapshot taken from its owning note. -/
def fetchCardInfo (s : Store) (cid : Int) : Option CardInfo :=
  match findCard s cid with
  | none => none
  | some c =>
      match findNote s c.noteId with
      | none => none
      | some n =>
          some { cardId := c.cardId, ord := c.ord, interval := c.interval, fields := n.fields }

/-- The helper `get_card_info` (source lines 59-62): `cardsInfo` for a
sequence of card identifiers. -/
def get_card_info (s : Store) (ids : List Int) : List CardInfo :=
  ids.filterMap (fetchCardInfo s)

/-! ## Python dictionaries

The script builds `card_info_dict = {card["cardId"]: card for card in
card_infos}` (source line 140) and then iterates `card_info_dict.items()`
(line 145).  A Python dict comprehension inserts pairs left to right; a
repeated key keeps its first position but takes the last value. -/

/-- Python dict assignment `d[k] = v` on an association list: update the
entries holding key `k` in place, or append the new pair when the key is
absent. -/
def dictInsert {α : Type} (d : List (Int × α)) (k : Int) (v : α) : List (Int × α) :=
  if d.any (fun p => decide (p.1 = k)) then
    d.map (fun p => if p.1 = k then (k, v) else p)
  else d ++ [(k, v)]

/-- A Python dict built from a list of key-value pairs, as a dict
comprehension does: repeated assignment left to right. -/
def pyDict {α : Type} (l : List (Int × α)) : List (Int × α) :=
  l.foldl (fun d p => dictInsert d p.1 p.2) []

/-! ## Eligibility (source lines 144-149) -/

/-- The eligibility test of source lines 146-148: the card's template
ordinal equals the qualifying ordinal, its interval is strictly above the
threshold, and its target field's current value differs from the target
value (a missing field also counts as differing, as the chained `.get`
calls return `None` there). -/
def cardEligible (cfg : Config) (qualOrd : Nat) (info : CardInfo) : Bool :=
  decide (info.ord = qualOrd) && decide (cfg.intervalThreshold < info.interval) &&
    decide (lookupField info.fields cfg.fieldName ≠ some cfg.newValue)

/-- The `eligible_card_ids` list of source lines 144-149: iterate the
card-info dict in order and keep the identifiers of eligible cards. -/
def eligibleCardIds (cfg : Config) (qualOrd : Nat) (infos : List CardInfo) : List Int :=
  ((pyDict (infos.map (fun c => (c.cardId, c)))).filter
    (fun p => cardEligible cfg qualOrd p.2)).map (fun p => p.1)

/-- The card-identifier collection of source line 132:
`[card_id for note in notes for card_id in note["cards"]]`. -/
def collectCardIds : List Note → List Int
  | [] => []
  | n :: rest => n.cards ++ collectCardIds rest

/-- The `notes_to_update` filter of source lines 154-157: keep the notes
owning at least one eligible card. -/
def notesToUpdate (notes : List Note) (elig : List Int) : List Note :=
  notes.filter (fun n => n.cards.any (fun cid => decide (cid ∈ elig)))

/-! ## The field-update operation (source lines 69-85) -/

/-- One remote `updateNoteFields` call: one note, one field, one value. -/
structure UpdateCall where
  noteId : Int
  fieldName : String
  value : String
deriving DecidableEq

/-- The remote effect of one `updateNoteFields` call on a note's field
mapping, per the documented contract of writing one field's value on one
note: dict assignment of the value under the field name. -/
def setField (fields : List (String × String)) (name value : String) :
    List (String × String) :=
  if fields.any (fun p => decide (p.1 = name)) then
    fields.map (fun p => if p.1 = name then (name, value) else p)
  else fields ++ [(name, value)]

/-- The remote effect of one successful `updateNoteFields` call on the
store: the targeted note's field is written; nothing else changes. -/
def applyUpdate (s : Store) (u : UpdateCall) : Store :=
  { s with notes := s.notes.map (fun n =>
      if n.noteId = u.noteId then
        { n with fields := setField n.fields u.fieldName u.value }
      else n) }

/-- The helper `update_note_fields` (source lines 69-85): one `invoke`
call per note identifier, in order.  `fails nid = some msg` means the
call for `nid` raises with message `msg`; the raise aborts the loop, so
no later identifier is invoked.  Returns the store after the applied
updates, the calls issued (the failing call included), and the
propagated exception message, if any. -/
def update_note_fields (fails : Int → Option String) (fieldName newValue : String) :
    Store → List Int → Store × List UpdateCall × Option String
  | s, [] => (s, [], none)
  | s, nid :: rest =>
      match fails nid with
      | some msg => (s, [⟨nid, fieldName, newValue⟩], some msg)
      | none =>
          let s1 := applyUpdate s ⟨nid, fieldName, newValue⟩
          let r := update_note_fields fails fieldName newValue s1 rest
          (r.1, ⟨nid, fieldName, newValue⟩ :: r.2.1, r.2.2)

/-! ## The orchestration (`unlock_audio_cards`, source lines 88-169, and
its near-duplicate `disable_border_maps_on_cards`) -/

/-- The qualifying ordinal: the position of the qualifying template name
in the model's template ordering (source lines 101-109), `none` when the
model or the template is missing. -/
def qualifyingOrd (s : Store) (cfg : Config) : Option Nat :=
  s.modelTemplates.bind (fun ts => ts.findIdx? (fun t => decide (t = cfg.templateName)))

/-- The notes surviving the model-name filter (source lines 120-124):
`notesInfo` on the deck query's identifiers, then an exact model-name
match. -/
def modelNotes (s : Store) (cfg : Config) : List Note :=
  (get_note_info s (find_notes s)).filter (fun n => decide (n.modelName = cfg.modelName))

/-- The card identifiers collected from the surviving notes
(source line 132). -/
def runCardIds (s : Store) (cfg : Config) : List Int :=
  collectCardIds (modelNotes s cfg)

/-- The eligible card identifiers of one run (source lines 137-149). -/
def runEligible (s : Store) (cfg : Config) (qualOrd : Nat) : List Int :=
  eligibleCardIds cfg qualOrd (get_card_info s (runCardIds s cfg))

/-- The notes selected for update in one run (source lines 154-157). -/
def runNotesToUpdate (s : Store) (cfg : Config) (qualOrd : Nat) : List Note :=
  notesToUpdate (modelNotes s cfg) (runEligible s cfg qualOrd)

/-- How one run ends, mirroring the source's distinct exit paths: the
warning returns of lines 106-107, 116-117 and 126-127, the
nothing-to-do path of line 166, the success path of line 164 (carrying
the updated-note count), and the top-level `except` of lines 168-169. -/
inductive RunOutcome where
  | missingTemplate
  | emptyDeck
  | noModelNotes
  | nothingToDo
  | updated (count : Nat)
  | caughtError (msg : String)
deriving DecidableEq

/-- The body of the `try` block of `unlock_audio_cards` (source lines
95-166), parametrised by the configuration tuple: `Except.error` means an
exception escapes the body towards the top-level handler (a missing model
makes the `modelTemplates` invoke raise; a failing update call propagates
out of `update_note_fields`).  Returns the final store, the update calls
issued, and the outcome. -/
def unlockAudioCardsRaw (fails : Int → Option String) (s : Store) (cfg : Config) :
    Store × List UpdateCall × Except String RunOutcome :=
  match s.modelTemplates with
  | none => (s, [], .error ("AnkiConnect error: model was not found: " ++ cfg.modelName))
  | some templates =>
      match templates.findIdx? (fun t => decide (t = cfg.templateName)) with
      | none => (s, [], .ok .missingTemplate)
      | some qualOrd =>
          if (find_notes s).isEmpty then (s, [], .ok .emptyDeck)
          else if (modelNotes s cfg).isEmpty then (s, [], .ok .noModelNotes)
          else
            let toUpdate := runNotesToUpdate s cfg qualOrd
            if toUpdate.isEmpty then (s, [], .ok .nothingToDo)
            else
              let r := update_note_fields fails cfg.fieldName cfg.newValue s
                (toUpdate.map (fun n => n.noteId))
              match r.2.2 with
              | some msg => (r.1, r.2.1, .error msg)
              | none => (r.1, r.2.1, .ok (.updated toUpdate.length))

/-- The orchestration function `unlock_audio_cards` (source lines
88-169): the body wrapped in the top-level `except Exception` handler,
which logs and swallows, so the function always returns normally. -/
def unlock_audio_cards (fails : Int → Option String) (s : Store) (cfg : Config) :
    Store × List UpdateCall × RunOutcome :=
  match unlockAudioCardsRaw fails s cfg with
  | (s1, calls, .ok out) => (s1, calls, out)
  | (s1, calls, .error msg) => (s1, calls, .caughtError msg)

/-- The configuration hardcoded by `EnableAudioOnFlashcards.py`. -/
def enableAudioConfig : Config :=
  { deckName := "Polish", modelName := "Words", templateName := "Word",
    intervalThreshold := 14, fieldName := "Audio Enabled", newValue := "Yes" }

/-- The configuration hardcoded by `DisableBorderMapOnFlashcards.py`. -/
def disableBorderMapConfig : Config :=
  { deckName := "Other", modelName := "Regions", templateName := "Neighbours",
    intervalThreshold := 45, fieldName := "No Border Map", newValue := "Yes" }

/-- The orchestration function `disable_border_maps_on_cards` of
`DisableBorderMapOnFlashcards.py`: the same pipeline at its
configuration. -/
def disable_border_maps_on_cards (fails : Int → Option String) (s : Store) :
    Store × List UpdateCall × RunOutcome :=
  unlock_audio_cards fails s disableBorderMapConfig

/-- The oracle of a run in which every update call succeeds. -/
def noFail : Int → Option String := fun _ => none

/-- Ownership consistency of a store: a card identifier listed among a
note's cards resolves to a card owned by that note.  This is the Anki
invariant that `note["cards"]` and `card["note"]` agree. -/
def ownershipConsistent (s : Store) : Prop :=
  ∀ n ∈ s.notes, ∀ cid ∈ n.cards, ∀ c ∈ s.cards, c.cardId = cid → c.noteId = n.noteId

instance (s : Store) : Decidable (ownershipConsistent s) := by
  unfold ownershipConsistent
  exact List.decidableBAll _ _

/-- The cumulative effect on one note of the update loop over a list of
note identifiers: notes whose identifier occurs in the list get the
target field written, the others are untouched. -/
def updNote (fieldName newValue : String) (ids : List Int) (n : Note) : Note :=
  if n.noteId ∈ ids then { n with fields := setField n.fields fieldName newValue }
  else n

/-- The store resulting from applying a list of update calls in order. -/
def applyUpdates (f v : String) (s : Store) (ids : List Int) : Store :=
  ids.foldl (fun s i => applyUpdate s ⟨i, f, v⟩) s

/-- A small concrete store exercising the pipeline: three notes in the
deck, two of the configured model, one note owning two cards that both
qualify, one note already carrying the target value, one note of another
model. -/
def demoStore : Store :=
  { modelTemplates := some ["Word", "Reverse"],
    deckNoteIds := [10, 11, 12],
    notes := [
      { noteId := 10, modelName := "Words",
        fields := [("Front", "kot"), ("Audio Enabled", "No")], cards := [100, 101] },
      { noteId := 11, modelName := "Words",
        fields := [("Front", "pies"), ("Audio Enabled", "Yes")], cards := [110] },
      { noteId := 12, modelName := "Other",
        fields := [("Front", "dom")], cards := [120] }],
    cards := [
      { cardId := 100, noteId := 10, ord := 0, interval := 50 },
      { cardId := 101, noteId := 10, ord := 0, interval := 21 },
      { cardId := 110, noteId := 11, ord := 0, interval := 50 },
      { cardId := 120, noteId := 12, ord := 0, interval := 50 }] }

/-- A failure oracle making the update call for note 10 raise. -/
def demoFails : Int → Option String :=
  fun i => if i = 10 then some "boom" else none

/-! ## Helper lemmas about the embedded operations -/

lemma lookupField_map_set (f : List (String × String)) (n v : String) :
    lookupField (f.map (fun p => if p.1 = n then (n, v) else p)) n =
      (if f.any (fun p => decide (p.1 = n)) then some v else none) := by
  induction f with
  | nil => simp [lookupField]
  | cons p rest ih =>
      by_cases hp : p.1 = n
      · have hd : (decide (p.1 = n)) = true := by simpa using hp
        simp only [List.map_cons, if_pos hp, List.any_cons, hd, Bool.true_or, if_true]
        unfold lookupField
        rw [List.find?_cons_of_pos _ (by simp)]
        rfl
      · have hd : (decide (p.1 = n)) = false := by simpa using hp
        simp only [List.map_cons, if_neg hp, List.any_cons, hd, Bool.false_or]
        unfold lookupField
        rw [List.find?_cons_of_neg _ (by simpa using hp)]
        exact ih

lemma lookupField_append_single (f : List (String × String)) (n v : String)
    (h : f.any (fun p => decide (p.1 = n)) = false) :
    lookupField (f ++ [(n, v)]) n = some v := by
  induction f with
  | nil => simp [lookupField, List.find?_cons]
  | cons p rest ih =>
      simp only [List.any_cons, Bool.or_eq_false_iff, decide_eq_false_iff_not] at h
      rw [List.cons_append]
      unfold lookupField
      rw [List.find?_cons_of_neg _ (by simpa using h.1)]
      exact ih h.2

/-- Writing a field and reading it back yields the written value. -/
lemma lookupField_setField_self (f : List (String × String)) (n v : String) :
    lookupField (setField f n v) n = some v := by
  unfold setField
  cases h : f.any (fun p => decide (p.1 = n)) with
  | true => simp only [if_true, h, lookupField_map_set]
  | false =>
      simp only [h, Bool.false_eq_true, if_false]
      exact lookupField_append_single f n v h

lemma map_set_idem (f : List (String × String)) (n v : String) :
    (f.map (fun p => if p.1 = n then (n, v) else p)).map
        (fun p => if p.1 = n then (n, v) else p) =
      f.map (fun p => if p.1 = n then (n, v) else p) := by
  rw [List.map_map]
  refine List.map_congr_left (fun p _ => ?_)
  by_cases hp : p.1 = n <;> simp [hp, Function.comp]

lemma any_map_set (f : List (String × String)) (n v : String) :
    (f.map (fun p => if p.1 = n then (n, v) else p)).any (fun p => decide (p.1 = n)) =
      f.any (fun p => decide (p.1 = n)) := by
  induction f with
  | nil => simp
  | cons p rest ih =>
      by_cases hp : p.1 = n <;> simp [hp, ih]

/-- Writing the same field value twice equals writing it once. -/
lemma setField_setField (f : List (String × String)) (n v : String) :
    setField (setField f n v) n v = setField f n v := by
  unfold setField
  by_cases h : f.any (fun p => decide (p.1 = n)) = true
  · simp only [h, if_true, any_map_set, map_set_idem]
  · simp only [Bool.not_eq_true] at h
    have hall : ∀ p ∈ f, p.1 ≠ n := by
      intro p hp
      have hd := List.any_eq_false.mp h p hp
      simpa using hd
    have hmap : f.map (fun p => if p.1 = n then (n, v) else p) = f := by
      have hpt : ∀ p ∈ f, (if p.1 = n then (n, v) else p) = id p := by
        intro p hp
        simp [hall p hp]
      rw [List.map_congr_left hpt, List.map_id]
    have happ : (f ++ [(n, v)]).any (fun p => decide (p.1 = n)) = true := by
      simp [List.any_append]
    simp only [h, Bool.false_eq_true, if_false, happ, if_true, List.map_append, hmap]
    simp

/-- The card-info payload for an identifier carries that identifier. -/
lemma fetchCardInfo_cardId {s : Store} {cid : Int} {info : CardInfo}
    (h : fetchCardInfo s cid = some info) : info.cardId = cid := by
  unfold fetchCardInfo at h
  cases hc : findCard s cid with
  | none =>
      rw [hc] at h
      exact Option.noConfusion h
  | some c =>
      simp only [hc] at h
      cases hn : findNote s c.noteId with
      | none =>
          rw [hn] at h
          exact Option.noConfusion h
      | some n =>
          simp only [hn, Option.some.injEq] at h
          have hcard : c.cardId = cid := by
            have := List.find?_some hc
            simpa using this
          rw [← h]
          simpa using hcard

/-- A resolved note carries the identifier it was resolved by. -/
lemma findNote_noteId {s : Store} {nid : Int} {n : Note}
    (h : findNote s nid = some n) : n.noteId = nid := by
  have := List.find?_some h
  simpa using this

lemma findNote_mem {s : Store} {nid : Int} {n : Note}
    (h : findNote s nid = some n) : n ∈ s.notes :=
  List.mem_of_find?_eq_some h

/-- A note in a `notesInfo` answer resolves to itself by its own id. -/
lemma get_note_info_self {s : Store} {ids : List Int} {n : Note}
    (h : n ∈ get_note_info s ids) : findNote s n.noteId = some n := by
  rcases List.mem_filterMap.mp h with ⟨nid, _, hfind⟩
  have := findNote_noteId hfind
  rw [this]
  exact hfind

lemma mem_collectCardIds {l : List Note} {cid : Int} :
    cid ∈ collectCardIds l ↔ ∃ n ∈ l, cid ∈ n.cards := by
  induction l with
  | nil => simp [collectCardIds]
  | cons n rest ih => simp [collectCardIds, List.mem_append, ih]

/-! ## Python dict lemmas

On a pair list whose values are determined by their keys — which holds for
the card-info pairs, since the info for an identifier is a function of the
store — a Python dict has exactly the pairs of the input list. -/

lemma dictInsert_mem {α : Type} (d : List (Int × α)) (k : Int) (v : α)
    (hfun : ∀ v2, (k, v2) ∈ d → v2 = v) (p : Int × α) :
    p ∈ dictInsert d k v ↔ p ∈ d ∨ p = (k, v) := by
  unfold dictInsert
  cases h : d.any (fun q => decide (q.1 = k)) with
  | true =>
      have hmap : d.map (fun q => if q.1 = k then (k, v) else q) = d := by
        have hpt : ∀ q ∈ d, (if q.1 = k then (k, v) else q) = id q := by
          intro q hq
          by_cases hk : q.1 = k
          · have hq2 : (k, q.2) ∈ d := by
              have hqe : q = (k, q.2) := by
                rw [← hk]
              rw [← hqe]
              exact hq
            have hv := hfun q.2 hq2
            rw [if_pos hk, ← hk, ← hv]
            rfl
          · rw [if_neg hk]
            rfl
        rw [List.map_congr_left hpt, List.map_id]
      simp only [h, if_true, hmap]
      constructor
      · exact Or.inl
      · rintro (hd | he)
        · exact hd
        · rcases List.any_eq_true.mp h with ⟨q, hq, hqk⟩
          have hk : q.1 = k := by simpa using hqk
          have hq2 : (k, q.2) ∈ d := by
            have hqe : q = (k, q.2) := by
              rw [← hk]
            rw [← hqe]
            exact hq
          have hv := hfun q.2 hq2
          rw [he, ← hv]
          exact hq2
  | false =>
      simp only [h, Bool.false_eq_true, if_false, List.mem_append, List.mem_singleton]

lemma pyDict_foldl_mem {α : Type} (l : List (Int × α)) :
    ∀ d, (∀ k v v2, (k, v) ∈ d ++ l → (k, v2) ∈ d ++ l → v = v2) →
      ∀ p, (p ∈ l.foldl (fun d q => dictInsert d q.1 q.2) d ↔ p ∈ d ++ l) := by
  induction l with
  | nil =>
      intro d _ p
      simp
  | cons q l ih =>
      intro d hfun p
      rw [List.foldl_cons]
      have hq_mem : (q.1, q.2) ∈ d ++ q :: l := by
        simp [List.mem_append]
      have hins : ∀ r : Int × α, r ∈ dictInsert d q.1 q.2 ↔ r ∈ d ∨ r = (q.1, q.2) := by
        intro r
        apply dictInsert_mem
        intro v2 hv2
        exact hfun q.1 v2 q.2 (List.mem_append.mpr (Or.inl hv2)) hq_mem
      have hmem_equiv : ∀ r : Int × α, r ∈ dictInsert d q.1 q.2 ++ l ↔ r ∈ d ++ q :: l := by
        intro r
        rw [List.mem_append, hins, List.mem_append, List.mem_cons]
        constructor
        · rintro ((h1 | h1) | h1)
          · exact Or.inl h1
          · exact Or.inr (Or.inl (by rw [h1]))
          · exact Or.inr (Or.inr h1)
        · rintro (h1 | h1 | h1)
          · exact Or.inl (Or.inl h1)
          · exact Or.inl (Or.inr (by rw [h1]))
          · exact Or.inr h1
      have hfun2 : ∀ k v v2, (k, v) ∈ dictInsert d q.1 q.2 ++ l →
          (k, v2) ∈ dictInsert d q.1 q.2 ++ l → v = v2 := by
        intro k v v2 h1 h2
        exact hfun k v v2 ((hmem_equiv (k, v)).mp h1) ((hmem_equiv (k, v2)).mp h2)
      rw [ih (dictInsert d q.1 q.2) hfun2 p, hmem_equiv p]

lemma pyDict_mem {α : Type} (l : List (Int × α))
    (hfun : ∀ k v v2, (k, v) ∈ l → (k, v2) ∈ l → v = v2) (p : Int × α) :
    p ∈ pyDict l ↔ p ∈ l := by
  unfold pyDict
  have hres := pyDict_foldl_mem l [] (by simpa using hfun) p
  simpa using hres

/-! ## Eligibility characterization -/

lemma mem_cardInfoPairs {s : Store} {ids : List Int} (k : Int) (v : CardInfo) :
    (k, v) ∈ (get_card_info s ids).map (fun c => (c.cardId, c)) ↔
      (k ∈ ids ∧ fetchCardInfo s k = some v) := by
  constructor
  · intro h
    rcases List.mem_map.mp h with ⟨c, hc, hckv⟩
    rcases List.mem_filterMap.mp hc with ⟨i, hi, hfi⟩
    rw [Prod.mk.injEq] at hckv
    obtain ⟨h1, h2⟩ := hckv
    have hcid := fetchCardInfo_cardId hfi
    subst h2
    subst h1
    rw [hcid]
    exact ⟨hi, hfi⟩
  · rintro ⟨hid, hfetch⟩
    apply List.mem_map.mpr
    refine ⟨v, List.mem_filterMap.mpr ⟨k, hid, hfetch⟩, ?_⟩
    have hvk := fetchCardInfo_cardId hfetch
    rw [hvk]

/-- Membership in the eligible-card list: an identifier is classified as
eligible exactly when it was among the fetched identifiers, resolves to a
card-info payload, and that payload passes the eligibility test. -/
lemma mem_eligibleCardIds {cfg : Config} {qualOrd : Nat} {s : Store} {ids : List Int}
    {cid : Int} :
    cid ∈ eligibleCardIds cfg qualOrd (get_card_info s ids) ↔
      cid ∈ ids ∧ ∃ info, fetchCardInfo s cid = some info ∧
        cardEligible cfg qualOrd info = true := by
  have hfun : ∀ (k : Int) (v v2 : CardInfo),
      (k, v) ∈ (get_card_info s ids).map (fun c => (c.cardId, c)) →
      (k, v2) ∈ (get_card_info s ids).map (fun c => (c.cardId, c)) → v = v2 := by
    intro k v v2 h1 h2
    have e1 := (mem_cardInfoPairs k v).mp h1
    have e2 := (mem_cardInfoPairs k v2).mp h2
    have hsome := e1.2.symm.trans e2.2
    exact Option.some.inj hsome
  constructor
  · intro h
    unfold eligibleCardIds at h
    rcases List.mem_map.mp h with ⟨p, hp, hp1⟩
    rcases List.mem_filter.mp hp with ⟨hpd, hpe⟩
    have hpairs := (pyDict_mem _ hfun p).mp hpd
    have hkv := (mem_cardInfoPairs p.1 p.2).mp hpairs
    rw [hp1] at hkv
    exact ⟨hkv.1, p.2, hkv.2, hpe⟩
  · rintro ⟨hid, info, hfetch, helig⟩
    unfold eligibleCardIds
    apply List.mem_map.mpr
    refine ⟨(cid, info), ?_, rfl⟩
    apply List.mem_filter.mpr
    exact ⟨(pyDict_mem _ hfun _).mpr ((mem_cardInfoPairs cid info).mpr ⟨hid, hfetch⟩), helig⟩

/-- Run-level membership in the eligible-card list. -/
lemma mem_runEligible {s : Store} {cfg : Config} {qualOrd : Nat} {cid : Int} :
    cid ∈ runEligible s cfg qualOrd ↔
      cid ∈ runCardIds s cfg ∧ ∃ info, fetchCardInfo s cid = some info ∧
        cardEligible cfg qualOrd info = true := by
  unfold runEligible
  exact mem_eligibleCardIds

/-! ## Update loop lemmas -/

lemma updNote_cons (f v : String) (i : Int) (ids : List Int) (n : Note) :
    updNote f v ids
        (if n.noteId = i then { n with fields := setField n.fields f v } else n) =
      updNote f v (i :: ids) n := by
  by_cases hi : n.noteId = i
  · by_cases hmem : n.noteId ∈ ids
    · simp [updNote, hi, hmem, setField_setField]
    · simp [updNote, hi, hmem, setField_setField]
  · by_cases hmem : n.noteId ∈ ids
    · simp [updNote, hi, hmem]
    · simp [updNote, hi, hmem]

/-- The update loop with no failing call applies the field write to every
listed note, issues exactly one call per identifier in order, and raises
nothing. -/
lemma update_note_fields_noFail (f v : String) (ids : List Int) :
    ∀ s : Store,
      update_note_fields noFail f v s ids =
        ({ s with notes := s.notes.map (updNote f v ids) },
          ids.map (fun i => UpdateCall.mk i f v), none) := by
  induction ids with
  | nil =>
      intro s
      have hmap : s.notes.map (updNote f v []) = s.notes := by
        have hpt : ∀ n ∈ s.notes, updNote f v [] n = id n := by
          intro n _
          simp [updNote]
        rw [List.map_congr_left hpt, List.map_id]
      simp [update_note_fields, hmap]
  | cons i rest ih =>
      intro s
      have hnotes : (s.notes.map (fun n =>
            if n.noteId = i then { n with fields := setField n.fields f v } else n)).map
              (updNote f v rest) =
          s.notes.map (updNote f v (i :: rest)) := by
        rw [List.map_map]
        exact List.map_congr_left (fun n _ => updNote_cons f v i rest n)
      simp only [update_note_fields, noFail, applyUpdate]
      rw [ih]
      simp only [List.map_cons]
      rw [hnotes]

/-- When the call for the k-th identifier fails and the earlier ones
succeed, the loop issues exactly the first k+1 calls (the failing one
included), leaves the first k updates applied, and propagates the
failure message. -/
lemma update_note_fields_fail (f v : String) (fails : Int → Option String) :
    ∀ (ids : List Int) (k : Nat) (s : Store) (hk : k < ids.length),
      fails (ids.get ⟨k, hk⟩) ≠ none →
      (∀ j (hj : j < k), fails (ids.get ⟨j, Nat.lt_trans hj hk⟩) = none) →
      ∃ m, update_note_fields fails f v s ids =
        (applyUpdates f v s (ids.take k),
          (ids.take (k + 1)).map (fun i => UpdateCall.mk i f v), some m) := by
  intro ids
  induction ids with
  | nil =>
      intro k s hk
      exact absurd hk (by simp)
  | cons i rest ih =>
      intro k s hk hfail hbefore
      cases k with
      | zero =>
          rcases Option.ne_none_iff_exists.mp hfail with ⟨m, hm⟩
          refine ⟨m, ?_⟩
          simp only [update_note_fields, List.get] at hm ⊢
          rw [← hm]
          rfl
      | succ k1 =>
          have h0 : fails i = none := hbefore 0 (Nat.succ_pos k1)
          have hk1 : k1 < rest.length := Nat.lt_of_succ_lt_succ hk
          have hfail1 : fails (rest.get ⟨k1, hk1⟩) ≠ none := hfail
          have hbefore1 : ∀ j (hj : j < k1),
              fails (rest.get ⟨j, Nat.lt_trans hj hk1⟩) = none := by
            intro j hj
            exact hbefore (j + 1) (Nat.succ_lt_succ hj)
          rcases ih k1 (applyUpdate s ⟨i, f, v⟩) hk1 hfail1 hbefore1 with ⟨m, hm⟩
          refine ⟨m, ?_⟩
          simp only [update_note_fields, h0]
          rw [hm]
          rfl

/-! ## Run-level case lemmas -/

lemma findIdx?_eq_none_iff_not_mem {ts : List String} {name : String} :
    ts.findIdx? (fun t => decide (t = name)) = none ↔ name ∉ ts := by
  rw [List.findIdx?_eq_none_iff]
  constructor
  · intro h hmem
    have hd := h name hmem
    simp at hd
  · intro h t ht
    simp only [decide_eq_false_iff_not]
    intro he
    rw [he] at ht
    exact h ht

lemma modelNotes_deck_empty {s : Store} {cfg : Config} (h : s.deckNoteIds = []) :
    modelNotes s cfg = [] := by
  unfold modelNotes get_note_info find_notes
  rw [h]
  rfl

lemma runNotesToUpdate_model_empty {s : Store} {cfg : Config} {q : Nat}
    (h : modelNotes s cfg = []) : runNotesToUpdate s cfg q = [] := by
  unfold runNotesToUpdate notesToUpdate
  rw [h]
  rfl

/-- A missing model: the `modelTemplates` invoke raises, the exception is
caught at the top level, and no update call is issued. -/
lemma unlock_modelMissing (fails : Int → Option String) (s : Store) (cfg : Config)
    (h : s.modelTemplates = none) :
    unlock_audio_cards fails s cfg =
      (s, [], .caughtError ("AnkiConnect error: model was not found: " ++ cfg.modelName)) := by
  unfold unlock_audio_cards unlockAudioCardsRaw
  rw [h]

/-- A missing qualifying template: the early return of source lines
105-107. -/
lemma unlock_templateMissing (fails : Int → Option String) (s : Store) (cfg : Config)
    (ts : List String) (hts : s.modelTemplates = some ts)
    (hidx : ts.findIdx? (fun t => decide (t = cfg.templateName)) = none) :
    unlock_audio_cards fails s cfg = (s, [], .missingTemplate) := by
  unfold unlock_audio_cards unlockAudioCardsRaw
  rw [hts]
  simp only [hidx]

/-- An empty deck query: the early return of source lines 114-117. -/
lemma unlock_emptyDeck (fails : Int → Option String) (s : Store) (cfg : Config)
    (ts : List String) (q : Nat) (hts : s.modelTemplates = some ts)
    (hidx : ts.findIdx? (fun t => decide (t = cfg.templateName)) = some q)
    (hdeck : s.deckNoteIds = []) :
    unlock_audio_cards fails s cfg = (s, [], .emptyDeck) := by
  unfold unlock_audio_cards unlockAudioCardsRaw
  rw [hts]
  simp only [hidx, find_notes, hdeck, List.isEmpty_nil, if_true]

/-- No note of the configured model: the early return of source lines
124-127. -/
lemma unlock_noModelNotes (fails : Int → Option String) (s : Store) (cfg : Config)
    (ts : List String) (q : Nat) (hts : s.modelTemplates = some ts)
    (hidx : ts.findIdx? (fun t => decide (t = cfg.templateName)) = some q)
    (hdeck : s.deckNoteIds ≠ []) (hmn : modelNotes s cfg = []) :
    unlock_audio_cards fails s cfg = (s, [], .noModelNotes) := by
  have hdeckE : (find_notes s).isEmpty = false := by
    cases hE : (find_notes s).isEmpty
    · rfl
    · exact absurd (List.isEmpty_iff.mp hE) hdeck
  unfold unlock_audio_cards unlockAudioCardsRaw
  rw [hts]
  simp only [hidx, hdeckE, Bool.false_eq_true, if_false, hmn, List.isEmpty_nil, if_true]

/-- No selected note: the nothing-to-do path of source line 166. -/
lemma unlock_nothingToDo (fails : Int → Option String) (s : Store) (cfg : Config)
    (ts : List String) (q : Nat) (hts : s.modelTemplates = some ts)
    (hidx : ts.findIdx? (fun t => decide (t = cfg.templateName)) = some q)
    (hmn : modelNotes s cfg ≠ []) (hnu : runNotesToUpdate s cfg q = []) :
    unlock_audio_cards fails s cfg = (s, [], .nothingToDo) := by
  have hdeck : s.deckNoteIds ≠ [] := by
    intro h
    exact hmn (modelNotes_deck_empty h)
  have hdeckE : (find_notes s).isEmpty = false := by
    cases hE : (find_notes s).isEmpty
    · rfl
    · exact absurd (List.isEmpty_iff.mp hE) hdeck
  have hmnE : (modelNotes s cfg).isEmpty = false := by
    cases hE : (modelNotes s cfg).isEmpty
    · rfl
    · exact absurd (List.isEmpty_iff.mp hE) hmn
  unfold unlock_audio_cards unlockAudioCardsRaw
  rw [hts]
  simp only [hidx, hdeckE, Bool.false_eq_true, if_false, hmnE, hnu, List.isEmpty_nil, if_true]

/-- The run reaching the update phase: the body hands the selected notes'
identifiers to `update_note_fields` and wraps its result. -/
lemma raw_updates (fails : Int → Option String) (s : Store) (cfg : Config)
    (ts : List String) (q : Nat) (hts : s.modelTemplates = some ts)
    (hidx : ts.findIdx? (fun t => decide (t = cfg.templateName)) = some q)
    (hnu : runNotesToUpdate s cfg q ≠ []) :
    unlockAudioCardsRaw fails s cfg =
      (let r := update_note_fields fails cfg.fieldName cfg.newValue s
        ((runNotesToUpdate s cfg q).map (fun n => n.noteId))
      match r.2.2 with
      | some msg => (r.1, r.2.1, Except.error msg)
      | none => (r.1, r.2.1,
          Except.ok (RunOutcome.updated (runNotesToUpdate s cfg q).length))) := by
  have hmn : modelNotes s cfg ≠ [] := by
    intro h
    exact hnu (runNotesToUpdate_model_empty h)
  have hdeck : s.deckNoteIds ≠ [] := by
    intro h
    exact hmn (modelNotes_deck_empty h)
  have hdeckE : (find_notes s).isEmpty = false := by
    cases hE : (find_notes s).isEmpty
    · rfl
    · exact absurd (List.isEmpty_iff.mp hE) hdeck
  have hmnE : (modelNotes s cfg).isEmpty = false := by
    cases hE : (modelNotes s cfg).isEmpty
    · rfl
    · exact absurd (List.isEmpty_iff.mp hE) hmn
  have hnuE : (runNotesToUpdate s cfg q).isEmpty = false := by
    cases hE : (runNotesToUpdate s cfg q).isEmpty
    · rfl
    · exact absurd (List.isEmpty_iff.mp hE) hnu
  unfold unlockAudioCardsRaw
  rw [hts]
  simp only [hidx, hdeckE, Bool.false_eq_true, if_false, hmnE, hnuE]

/-- A failure-free run reaching the update phase: the final store, the
calls, and the reported count. -/
lemma unlock_noFail_updates (s : Store) (cfg : Config)
    (ts : List String) (q : Nat) (hts : s.modelTemplates = some ts)
    (hidx : ts.findIdx? (fun t => decide (t = cfg.templateName)) = some q)
    (hnu : runNotesToUpdate s cfg q ≠ []) :
    unlock_audio_cards noFail s cfg =
      ({ s with notes := s.notes.map (updNote cfg.fieldName cfg.newValue
          ((runNotesToUpdate s cfg q).map (fun n => n.noteId))) },
        ((runNotesToUpdate s cfg q).map (fun n => n.noteId)).map
          (fun i => UpdateCall.mk i cfg.fieldName cfg.newValue),
        RunOutcome.updated (runNotesToUpdate s cfg q).length) := by
  unfold unlock_audio_cards
  rw [raw_updates noFail s cfg ts q hts hidx hnu]
  rw [update_note_fields_noFail]

/-! ## Effect of the field writes on a later run -/

lemma updNote_noteId (f v : String) (ids : List Int) (n : Note) :
    (updNote f v ids n).noteId = n.noteId := by
  unfold updNote
  split <;> rfl

lemma updNote_modelName (f v : String) (ids : List Int) (n : Note) :
    (updNote f v ids n).modelName = n.modelName := by
  unfold updNote
  split <;> rfl

lemma updNote_cards (f v : String) (ids : List Int) (n : Note) :
    (updNote f v ids n).cards = n.cards := by
  unfold updNote
  split <;> rfl

lemma updNote_fields_of_mem (f v : String) (ids : List Int) (n : Note)
    (h : n.noteId ∈ ids) : (updNote f v ids n).fields = setField n.fields f v := by
  unfold updNote
  rw [if_pos h]

lemma updNote_of_not_mem (f v : String) (ids : List Int) (n : Note)
    (h : n.noteId ∉ ids) : updNote f v ids n = n := by
  unfold updNote
  rw [if_neg h]

lemma findNote_map_updNote (s : Store) (f v : String) (ids : List Int) (nid : Int) :
    findNote { s with notes := s.notes.map (updNote f v ids) } nid =
      Option.map (updNote f v ids) (findNote s nid) := by
  unfold findNote
  show (s.notes.map (updNote f v ids)).find? (fun n => decide (n.noteId = nid)) = _
  rw [List.find?_map]
  have hpe : (fun n => decide (n.noteId = nid)) ∘ updNote f v ids =
      fun n => decide (n.noteId = nid) := by
    funext n
    simp [Function.comp, updNote_noteId]
  rw [hpe]

lemma modelNotes_map_updNote (s : Store) (cfg : Config) (f v : String) (ids : List Int) :
    modelNotes { s with notes := s.notes.map (updNote f v ids) } cfg =
      (modelNotes s cfg).map (updNote f v ids) := by
  unfold modelNotes get_note_info find_notes
  show (List.filterMap (findNote { s with notes := s.notes.map (updNote f v ids) })
      s.deckNoteIds).filter (fun n => decide (n.modelName = cfg.modelName)) = _
  have hfuneq : findNote { s with notes := s.notes.map (updNote f v ids) } =
      fun nid => Option.map (updNote f v ids) (findNote s nid) :=
    funext (fun nid => findNote_map_updNote s f v ids nid)
  rw [hfuneq, ← List.map_filterMap, List.filter_map]
  have hpe : (fun n => decide (n.modelName = cfg.modelName)) ∘ updNote f v ids =
      fun n => decide (n.modelName = cfg.modelName) := by
    funext n
    simp [Function.comp, updNote_modelName]
  rw [hpe]

lemma fetchCardInfo_eq_some_iff {s : Store} {cid : Int} {info : CardInfo} :
    fetchCardInfo s cid = some info ↔
      ∃ c n, findCard s cid = some c ∧ findNote s c.noteId = some n ∧
        info = CardInfo.mk c.cardId c.ord c.interval n.fields := by
  unfold fetchCardInfo
  cases hcc : findCard s cid with
  | none => simp
  | some c =>
      cases hnn : findNote s c.noteId with
      | none => simp [hnn]
      | some n => simp [hnn, eq_comm]

/-! ## Selection characterization -/

/-- A note is kept for update exactly when it survived the model filter
and owns at least one eligible card. -/
lemma mem_runNotesToUpdate {s : Store} {cfg : Config} {q : Nat} {n : Note} :
    n ∈ runNotesToUpdate s cfg q ↔
      n ∈ modelNotes s cfg ∧ ∃ cid ∈ n.cards, cid ∈ runEligible s cfg q := by
  unfold runNotesToUpdate notesToUpdate
  rw [List.mem_filter]
  constructor
  · rintro ⟨h1, h2⟩
    rcases List.any_eq_true.mp h2 with ⟨cid, hcid, hd⟩
    exact ⟨h1, cid, hcid, of_decide_eq_true hd⟩
  · rintro ⟨h1, cid, hcid, hmem⟩
    exact ⟨h1, List.any_eq_true.mpr ⟨cid, hcid, decide_eq_true hmem⟩⟩

lemma notesToUpdate_nil_elig (l : List Note) : notesToUpdate l [] = [] := by
  unfold notesToUpdate
  rw [List.filter_eq_nil_iff]
  intro n _
  simp

/-- With no selected note there is no eligible card at all: an eligible
card is reachable only through a surviving note, which would then be
selected. -/
lemma runEligible_nil_of_notesToUpdate_nil (s : Store) (cfg : Config) (q : Nat)
    (h : runNotesToUpdate s cfg q = []) : runEligible s cfg q = [] := by
  rw [List.eq_nil_iff_forall_not_mem]
  intro cid hc
  rcases mem_runEligible.mp hc with ⟨hcard, _, _, _⟩
  unfold runCardIds at hcard
  rcases mem_collectCardIds.mp hcard with ⟨n, hn, hcn⟩
  have hsel : n ∈ runNotesToUpdate s cfg q := mem_runNotesToUpdate.mpr ⟨hn, cid, hcn, hc⟩
  rw [h] at hsel
  exact absurd hsel (List.not_mem_nil n)

/-- After writing the target field on every note whose identifier covers
the selected notes, no card is eligible any more: a card on a written
note now carries the target value, and a card on an untouched note kept
its old verdict, which must have been negative or its note would have
been selected and hence written. -/
lemma runEligible_map_updNote_nil (s : Store) (cfg : Config) (q : Nat) (ids : List Int)
    (hown : ownershipConsistent s)
    (hcover : ∀ n ∈ runNotesToUpdate s cfg q, n.noteId ∈ ids) :
    runEligible
      { s with notes := s.notes.map (updNote cfg.fieldName cfg.newValue ids) } cfg q
      = [] := by
  rw [List.eq_nil_iff_forall_not_mem]
  intro cid hc2
  rcases mem_runEligible.mp hc2 with ⟨hcard2, info2, hf2, he2⟩
  unfold runCardIds at hcard2
  rw [modelNotes_map_updNote] at hcard2
  rcases mem_collectCardIds.mp hcard2 with ⟨n2, hn2, hcidn2⟩
  rcases List.mem_map.mp hn2 with ⟨n, hn, hgn⟩
  rw [← hgn, updNote_cards] at hcidn2
  rcases fetchCardInfo_eq_some_iff.mp hf2 with ⟨c, m2, hcc2, hnn2, hinfo⟩
  have hcc : findCard s cid = some c := hcc2
  have hc_mem : c ∈ s.cards := List.mem_of_find?_eq_some hcc
  have hc_id : c.cardId = cid := by simpa using List.find?_some hcc
  have hn_info : n ∈ get_note_info s (find_notes s) := (List.mem_filter.mp hn).1
  have hn_mem : n ∈ s.notes := findNote_mem (get_note_info_self hn_info)
  have hcn : c.noteId = n.noteId := hown n hn_mem cid hcidn2 c hc_mem hc_id
  have hfindn : findNote s c.noteId = some n := by
    rw [hcn]
    exact get_note_info_self hn_info
  have hm2 : m2 = updNote cfg.fieldName cfg.newValue ids n := by
    have hstep : findNote
        { s with notes := s.notes.map (updNote cfg.fieldName cfg.newValue ids) }
        c.noteId = some (updNote cfg.fieldName cfg.newValue ids n) := by
      rw [findNote_map_updNote, hfindn]
      rfl
    rw [hstep] at hnn2
    exact (Option.some.inj hnn2).symm
  rw [hm2] at hinfo
  by_cases hsel : n.noteId ∈ ids
  · have hfields : (updNote cfg.fieldName cfg.newValue ids n).fields =
        setField n.fields cfg.fieldName cfg.newValue :=
      updNote_fields_of_mem cfg.fieldName cfg.newValue ids n hsel
    rw [hinfo] at he2
    simp only [cardEligible, Bool.and_eq_true, decide_eq_true_eq] at he2
    apply he2.2
    rw [hfields]
    exact lookupField_setField_self n.fields cfg.fieldName cfg.newValue
  · have hgn_id : updNote cfg.fieldName cfg.newValue ids n = n :=
      updNote_of_not_mem cfg.fieldName cfg.newValue ids n hsel
    rw [hgn_id] at hinfo
    have hf1 : fetchCardInfo s cid = some info2 :=
      fetchCardInfo_eq_some_iff.mpr ⟨c, n, hcc, hfindn, hinfo⟩
    have hcid1 : cid ∈ runCardIds s cfg := by
      unfold runCardIds
      exact mem_collectCardIds.mpr ⟨n, hn, hcidn2⟩
    have helig1 : cid ∈ runEligible s cfg q :=
      mem_runEligible.mpr ⟨hcid1, info2, hf1, he2⟩
    have hsel1 : n ∈ runNotesToUpdate s cfg q :=
      mem_runNotesToUpdate.mpr ⟨hn, cid, hcidn2, helig1⟩
    exact hsel (hcover n hsel1)

/-! ## Uniqueness of fetched note identifiers -/

lemma get_note_info_ids_sublist (s : Store) (ids : List Int) :
    ((get_note_info s ids).map (fun n => n.noteId)).Sublist ids := by
  induction ids with
  | nil => simp [get_note_info]
  | cons i rest ih =>
      unfold get_note_info at ih ⊢
      rw [List.filterMap_cons]
      cases hf : findNote s i with
      | none => exact ih.cons i
      | some n =>
          rw [List.map_cons, findNote_noteId hf]
          exact ih.cons₂ i

lemma runNotesToUpdate_ids_nodup (s : Store) (cfg : Config) (q : Nat)
    (hnd : s.deckNoteIds.Nodup) :
    ((runNotesToUpdate s cfg q).map (fun n => n.noteId)).Nodup := by
  have h1 : ((get_note_info s (find_notes s)).map (fun n => n.noteId)).Nodup :=
    (get_note_info_ids_sublist s (find_notes s)).nodup hnd
  have h2 : (runNotesToUpdate s cfg q).Sublist (get_note_info s (find_notes s)) := by
    unfold runNotesToUpdate notesToUpdate modelNotes
    exact (List.filter_sublist _).trans (List.filter_sublist _)
  exact (h2.map (fun n => n.noteId)).nodup h1

/-! ## The claims -/

/-- C1: for every card fetched in a run, the card is classified as
eligible if and only if its template ordinal equals the qualifying
ordinal, its interval is strictly greater than the threshold, and the
current value of its target field is not equal to the target value. -/
theorem c1_card_eligibility_iff (s : Store) (cfg : Config) (q : Nat)
    (hq : qualifyingOrd s cfg = some q) (cid : Int) (info : CardInfo)
    (hfetch : fetchCardInfo s cid = some info) (hmem : cid ∈ runCardIds s cfg) :
    cid ∈ runEligible s cfg q ↔
      (info.ord = q ∧ cfg.intervalThreshold < info.interval ∧
        lookupField info.fields cfg.fieldName ≠ some cfg.newValue) := by
  have hqkeep := hq
  rw [mem_runEligible]
  constructor
  · rintro ⟨-, info2, hf2, he⟩
    rw [hfetch] at hf2
    cases Option.some.inj hf2
    simp only [cardEligible, Bool.and_eq_true, decide_eq_true_eq] at he
    exact ⟨he.1.1, he.1.2, he.2⟩
  · rintro ⟨h1, h2, h3⟩
    refine ⟨hmem, info, hfetch, ?_⟩
    simp only [cardEligible, Bool.and_eq_true, decide_eq_true_eq]
    exact ⟨⟨h1, h2⟩, h3⟩

/-- Witness for C1: card 100 of the demo store (matching ordinal,
interval 50 over threshold 14, field still at another value) is
classified eligible. -/
theorem c1_card_eligibility_iff_witness :
    (100 : Int) ∈ runEligible demoStore enableAudioConfig 0 :=
  (c1_card_eligibility_iff demoStore enableAudioConfig 0 rfl 100
    (CardInfo.mk 100 0 50 [("Front", "kot"), ("Audio Enabled", "No")])
    (by decide) (by decide)).mpr (by decide)

/-- C2: a note surviving the model filter is selected for update exactly
when one of its cards is eligible, and the sequence of note identifiers
handed to the field-update step is exactly the selected notes'. -/
theorem c2_note_selection (s : Store) (cfg : Config) (q : Nat)
    (hq : qualifyingOrd s cfg = some q) :
    (∀ n ∈ modelNotes s cfg,
      (n ∈ runNotesToUpdate s cfg q ↔ ∃ cid ∈ n.cards, cid ∈ runEligible s cfg q)) ∧
    (runNotesToUpdate s cfg q ≠ [] →
      ((unlock_audio_cards noFail s cfg).2.1).map (fun c => c.noteId) =
        (runNotesToUpdate s cfg q).map (fun n => n.noteId)) := by
  constructor
  · intro n hn
    rw [mem_runNotesToUpdate]
    constructor
    · rintro ⟨-, h⟩
      exact h
    · intro h
      exact ⟨hn, h⟩
  · intro hnu
    cases hmt : s.modelTemplates with
    | none =>
        unfold qualifyingOrd at hq
        rw [hmt] at hq
        exact absurd hq (by simp)
    | some ts =>
        have hidx : ts.findIdx? (fun t => decide (t = cfg.templateName)) = some q := by
          unfold qualifyingOrd at hq
          rw [hmt, Option.some_bind] at hq
          exact hq
        rw [unlock_noFail_updates s cfg ts q hmt hidx hnu]
        dsimp only
        rw [List.map_map]
        have hcomp : ((fun c : UpdateCall => c.noteId) ∘
            (fun i => UpdateCall.mk i cfg.fieldName cfg.newValue)) = id :=
          funext (fun i => rfl)
        rw [hcomp, List.map_id]

/-- Witness for C2: in the demo store the single update call targets
exactly the selected note. -/
theorem c2_note_selection_witness :
    ((unlock_audio_cards noFail demoStore enableAudioConfig).2.1).map
        (fun c => c.noteId) =
      (runNotesToUpdate demoStore enableAudioConfig 0).map (fun n => n.noteId) :=
  (c2_note_selection demoStore enableAudioConfig 0 rfl).2 (by decide)

/-- C3: `invoke` raises `ConnectionError` exactly when the endpoint is
unreachable, raises the request-error (`RuntimeError`) exactly when the
transport succeeds but the remote reports an application-level error or
the transport itself errors, and otherwise returns the decoded result
payload. -/
theorem c3_invoke_error_classification {α : Type} (t : Transport α) :
    ((∃ m, invoke t = Except.error (InvokeError.connectionError m)) ↔
      t = Transport.connectionFailure) ∧
    ((∃ m, invoke t = Except.error (InvokeError.runtimeError m)) ↔
      ((∃ m, t = Transport.requestFailure m) ∨
        (∃ e r, t = Transport.httpResponse (some e) r ∧ e ≠ ""))) ∧
    (∀ e r, t = Transport.httpResponse e r → pyTruthy e = false →
      invoke t = Except.ok r) := by
  cases t with
  | connectionFailure =>
      refine ⟨⟨fun _ => rfl, fun _ => ⟨_, rfl⟩⟩, ⟨?_, ?_⟩, ?_⟩
      · rintro ⟨m, hm⟩
        simp [invoke] at hm
      · rintro (⟨m, hm⟩ | ⟨e, r, hm, hne⟩) <;> exact Transport.noConfusion hm
      · intro e r hm _
        exact Transport.noConfusion hm
  | requestFailure msg =>
      refine ⟨⟨?_, ?_⟩, ⟨?_, ?_⟩, ?_⟩
      · rintro ⟨m, hm⟩
        simp [invoke] at hm
      · intro hm
        exact Transport.noConfusion hm
      · intro _
        exact Or.inl ⟨msg, rfl⟩
      · intro _
        exact ⟨"Request failed: " ++ msg, rfl⟩
      · intro e r hm _
        exact Transport.noConfusion hm
  | httpResponse err res =>
      cases herr : pyTruthy err with
      | false =>
          have hok : invoke (Transport.httpResponse err res) = Except.ok res := by
            simp [invoke, herr]
          refine ⟨⟨?_, ?_⟩, ⟨?_, ?_⟩, ?_⟩
          · rintro ⟨m, hm⟩
            rw [hok] at hm
            exact Except.noConfusion hm
          · intro hm
            exact Transport.noConfusion hm
          · rintro ⟨m, hm⟩
            rw [hok] at hm
            exact Except.noConfusion hm
          · rintro (⟨m, hm⟩ | ⟨e, r, hm, hne⟩)
            · exact Transport.noConfusion hm
            · have he : err = some e := by
                injection hm with h1 h2
              rw [he] at herr
              simp [pyTruthy] at herr
              exact absurd herr hne
          · intro e r hm _
            injection hm with h1 h2
            rw [hok, h2]
      | true =>
          cases err with
          | none => exact absurd herr (by simp [pyTruthy])
          | some e =>
              have hne : e ≠ "" := by
                simpa [pyTruthy] using herr
              have herr2 : invoke (Transport.httpResponse (some e) res) =
                  Except.error (InvokeError.runtimeError ("AnkiConnect error: " ++ e)) := by
                simp [invoke, pyTruthy, hne]
              refine ⟨⟨?_, ?_⟩, ⟨?_, ?_⟩, ?_⟩
              · rintro ⟨m, hm⟩
                rw [herr2] at hm
                simp at hm
              · intro hm
                exact Transport.noConfusion hm
              · intro _
                exact Or.inr ⟨e, res, rfl, hne⟩
              · intro _
                exact ⟨"AnkiConnect error: " ++ e, herr2⟩
              · intro e2 r hm hpt
                injection hm with h1 h2
                rw [← h1] at hpt
                simp [pyTruthy] at hpt
                exact absurd hpt hne

/-- Witness for C3: a successful response returns its payload. -/
theorem c3_invoke_witness :
    invoke (Transport.httpResponse (none : Option String) (0 : Nat)) = Except.ok 0 :=
  (c3_invoke_error_classification
    (Transport.httpResponse (none : Option String) (0 : Nat))).2.2 none 0 rfl rfl

/-- C4: with no intervening external change, a second run right after a
failure-free run finds zero eligible cards and issues zero remote update
calls (the first run's writes make every previously eligible card fail
the target-field inequality). -/
theorem c4_second_run_idempotent (s : Store) (cfg : Config)
    (hown : ownershipConsistent s) :
    (∀ q, qualifyingOrd (unlock_audio_cards noFail s cfg).1 cfg = some q →
      runEligible (unlock_audio_cards noFail s cfg).1 cfg q = []) ∧
    (unlock_audio_cards noFail (unlock_audio_cards noFail s cfg).1 cfg).2.1 = [] := by
  cases hmt : s.modelTemplates with
  | none =>
      rw [unlock_modelMissing noFail s cfg hmt]
      dsimp only
      constructor
      · intro q hq
        unfold qualifyingOrd at hq
        rw [hmt] at hq
        exact absurd hq (by simp)
      · rw [unlock_modelMissing noFail s cfg hmt]
  | some ts =>
      cases hidx : ts.findIdx? (fun t => decide (t = cfg.templateName)) with
      | none =>
          rw [unlock_templateMissing noFail s cfg ts hmt hidx]
          dsimp only
          constructor
          · intro q hq
            unfold qualifyingOrd at hq
            rw [hmt, Option.some_bind, hidx] at hq
            exact Option.noConfusion hq
          · rw [unlock_templateMissing noFail s cfg ts hmt hidx]
      | some q0 =>
          by_cases hnu : runNotesToUpdate s cfg q0 = []
          · have helig : runEligible s cfg q0 = [] :=
              runEligible_nil_of_notesToUpdate_nil s cfg q0 hnu
            by_cases hdeck : s.deckNoteIds = []
            · rw [unlock_emptyDeck noFail s cfg ts q0 hmt hidx hdeck]
              dsimp only
              refine ⟨?_, ?_⟩
              · intro q hq
                unfold qualifyingOrd at hq
                rw [hmt, Option.some_bind, hidx] at hq
                rw [(Option.some.inj hq).symm]
                exact helig
              · rw [unlock_emptyDeck noFail s cfg ts q0 hmt hidx hdeck]
            · by_cases hmn : modelNotes s cfg = []
              · rw [unlock_noModelNotes noFail s cfg ts q0 hmt hidx hdeck hmn]
                dsimp only
                refine ⟨?_, ?_⟩
                · intro q hq
                  unfold qualifyingOrd at hq
                  rw [hmt, Option.some_bind, hidx] at hq
                  rw [(Option.some.inj hq).symm]
                  exact helig
                · rw [unlock_noModelNotes noFail s cfg ts q0 hmt hidx hdeck hmn]
              · rw [unlock_nothingToDo noFail s cfg ts q0 hmt hidx hmn hnu]
                dsimp only
                refine ⟨?_, ?_⟩
                · intro q hq
                  unfold qualifyingOrd at hq
                  rw [hmt, Option.some_bind, hidx] at hq
                  rw [(Option.some.inj hq).symm]
                  exact helig
                · rw [unlock_nothingToDo noFail s cfg ts q0 hmt hidx hmn hnu]
          · rw [unlock_noFail_updates s cfg ts q0 hmt hidx hnu]
            dsimp only
            have hcover : ∀ n ∈ runNotesToUpdate s cfg q0,
                n.noteId ∈ (runNotesToUpdate s cfg q0).map (fun n => n.noteId) := by
              intro n hn
              exact List.mem_map.mpr ⟨n, hn, rfl⟩
            have helig2 := runEligible_map_updNote_nil s cfg q0
              ((runNotesToUpdate s cfg q0).map (fun n => n.noteId)) hown hcover
            have hmt1 : ({ s with notes := s.notes.map (updNote cfg.fieldName
                cfg.newValue ((runNotesToUpdate s cfg q0).map (fun n => n.noteId))) } :
                Store).modelTemplates = some ts := hmt
            refine ⟨?_, ?_⟩
            · intro q hq
              unfold qualifyingOrd at hq
              rw [hmt1, Option.some_bind, hidx] at hq
              rw [(Option.some.inj hq).symm]
              exact helig2
            · have hmn : modelNotes s cfg ≠ [] := by
                intro h
                exact hnu (runNotesToUpdate_model_empty h)
              have hmn1 : modelNotes { s with notes := s.notes.map (updNote cfg.fieldName
                  cfg.newValue ((runNotesToUpdate s cfg q0).map (fun n => n.noteId))) }
                  cfg ≠ [] := by
                rw [modelNotes_map_updNote]
                intro h
                exact hmn (List.map_eq_nil_iff.mp h)
              have hnu2 : runNotesToUpdate { s with notes := s.notes.map (updNote
                  cfg.fieldName cfg.newValue
                  ((runNotesToUpdate s cfg q0).map (fun n => n.noteId))) } cfg q0
                  = [] := by
                have hum : runNotesToUpdate { s with notes := s.notes.map (updNote
                    cfg.fieldName cfg.newValue
                    ((runNotesToUpdate s cfg q0).map (fun n => n.noteId))) } cfg q0 =
                  notesToUpdate (modelNotes { s with notes := s.notes.map (updNote
                    cfg.fieldName cfg.newValue
                    ((runNotesToUpdate s cfg q0).map (fun n => n.noteId))) } cfg)
                    (runEligible { s with notes := s.notes.map (updNote
                    cfg.fieldName cfg.newValue
                    ((runNotesToUpdate s cfg q0).map (fun n => n.noteId))) } cfg q0) :=
                  rfl
                rw [hum, helig2]
                exact notesToUpdate_nil_elig _
              rw [unlock_nothingToDo noFail _ cfg ts q0 hmt1 hidx hmn1 hnu2]

/-- Witness for C4: the second run over the demo store issues no update
call. -/
theorem c4_second_run_idempotent_witness :
    (unlock_audio_cards noFail
      (unlock_audio_cards noFail demoStore enableAudioConfig).1
      enableAudioConfig).2.1 = [] :=
  (c4_second_run_idempotent demoStore enableAudioConfig (by decide)).2

/-- C5: when the configured model is missing (the remote reports an
error, caught at the top level) or the qualifying template is missing
(early warning return), the run is a no-op: the store is untouched, zero
update calls are issued, and the orchestration function returns an
outcome instead of raising. -/
theorem c5_config_mismatch_noop (fails : Int → Option String) (s : Store) (cfg : Config)
    (h : s.modelTemplates = none ∨
      ∃ ts, s.modelTemplates = some ts ∧ cfg.templateName ∉ ts) :
    (unlock_audio_cards fails s cfg).1 = s ∧
    (unlock_audio_cards fails s cfg).2.1 = [] ∧
    ((unlock_audio_cards fails s cfg).2.2 =
        RunOutcome.caughtError
          ("AnkiConnect error: model was not found: " ++ cfg.modelName) ∨
      (unlock_audio_cards fails s cfg).2.2 = RunOutcome.missingTemplate) := by
  rcases h with hm | ⟨ts, hts, habs⟩
  · rw [unlock_modelMissing fails s cfg hm]
    exact ⟨rfl, rfl, Or.inl rfl⟩
  · rw [unlock_templateMissing fails s cfg ts hts (findIdx?_eq_none_iff_not_mem.mpr habs)]
    exact ⟨rfl, rfl, Or.inr rfl⟩

/-- Witness for C5: a store without the model yields zero update calls. -/
theorem c5_config_mismatch_noop_witness :
    (unlock_audio_cards noFail (Store.mk none [] [] []) enableAudioConfig).2.1 = [] :=
  (c5_config_mismatch_noop noFail (Store.mk none [] [] []) enableAudioConfig
    (Or.inl rfl)).2.1

/-- C6: when the k-th per-note update call fails, the loop issues no call
past the k-th, the earlier writes stay applied, and the propagated
failure is caught at the top level: the orchestration function returns
normally with the caught-error outcome. -/
theorem c6_update_failure_aborts (fails : Int → Option String) (s : Store)
    (cfg : Config) (ts : List String) (q : Nat) (k : Nat)
    (hts : s.modelTemplates = some ts)
    (hidx : ts.findIdx? (fun t => decide (t = cfg.templateName)) = some q)
    (hk : k < ((runNotesToUpdate s cfg q).map (fun n => n.noteId)).length)
    (hfail : fails (((runNotesToUpdate s cfg q).map (fun n => n.noteId)).get ⟨k, hk⟩)
      ≠ none)
    (hbefore : ∀ j (hj : j < k),
      fails (((runNotesToUpdate s cfg q).map (fun n => n.noteId)).get
        ⟨j, Nat.lt_trans hj hk⟩) = none) :
    ∃ m, unlock_audio_cards fails s cfg =
      (applyUpdates cfg.fieldName cfg.newValue s
          (((runNotesToUpdate s cfg q).map (fun n => n.noteId)).take k),
        ((((runNotesToUpdate s cfg q).map (fun n => n.noteId))).take (k + 1)).map
          (fun i => UpdateCall.mk i cfg.fieldName cfg.newValue),
        RunOutcome.caughtError m) := by
  have hnu : runNotesToUpdate s cfg q ≠ [] := by
    intro h
    rw [h] at hk
    exact absurd hk (by simp)
  rcases update_note_fields_fail cfg.fieldName cfg.newValue fails
      ((runNotesToUpdate s cfg q).map (fun n => n.noteId)) k s hk hfail hbefore
    with ⟨m, hm⟩
  refine ⟨m, ?_⟩
  unfold unlock_audio_cards
  rw [raw_updates fails s cfg ts q hts hidx hnu]
  rw [hm]

/-- Witness for C6: with the call for note 10 failing, the demo run
issues only that call, applies nothing, and ends in the caught-error
outcome. -/
theorem c6_update_failure_aborts_witness :
    ∃ m, unlock_audio_cards demoFails demoStore enableAudioConfig =
      (demoStore, [UpdateCall.mk 10 "Audio Enabled" "Yes"], RunOutcome.caughtError m) := by
  rcases c6_update_failure_aborts demoFails demoStore enableAudioConfig
      ["Word", "Reverse"] 0 0 rfl rfl (by decide) (by decide)
      (fun j hj => absurd hj (Nat.not_lt_zero j)) with ⟨m, hm⟩
  refine ⟨m, ?_⟩
  rw [hm]
  rfl

/-- C7: the field-update operation issues exactly one remote call per
note identifier, in the order of the sequence, each writing the one
target field of that note to the target value; the empty sequence issues
zero calls. -/
theorem c7_one_call_per_note_id (fails : Int → Option String) (f v : String)
    (s : Store) (ids : List Int) (hsucc : ∀ i ∈ ids, fails i = none) :
    (update_note_fields fails f v s ids).2.1 = ids.map (fun i => UpdateCall.mk i f v) ∧
    (update_note_fields fails f v s ids).2.2 = none := by
  revert hsucc
  induction ids generalizing s with
  | nil =>
      intro _
      exact ⟨rfl, rfl⟩
  | cons i rest ih =>
      intro hsucc
      have h0 : fails i = none := hsucc i (List.mem_cons_self i rest)
      have ihr := ih (applyUpdate s ⟨i, f, v⟩)
        (fun j hj => hsucc j (List.mem_cons_of_mem i hj))
      constructor
      · simp only [update_note_fields, h0, List.map_cons]
        rw [ihr.1]
      · simp only [update_note_fields, h0]
        exact ihr.2

/-- Witness for C7: two identifiers yield exactly two calls in order. -/
theorem c7_one_call_per_note_id_witness :
    (update_note_fields noFail "Audio Enabled" "Yes" demoStore [10, 11]).2.1 =
      [UpdateCall.mk 10 "Audio Enabled" "Yes", UpdateCall.mk 11 "Audio Enabled" "Yes"] :=
  (c7_one_call_per_note_id noFail "Audio Enabled" "Yes" demoStore [10, 11]
    (fun _ _ => rfl)).1

/-- C8: when the qualifying template name is absent from the model's
template set, the updater returns early and issues zero update calls. -/
theorem c8_missing_template_guard (fails : Int → Option String) (s : Store)
    (cfg : Config) (ts : List String) (hts : s.modelTemplates = some ts)
    (habs : cfg.templateName ∉ ts) :
    unlock_audio_cards fails s cfg = (s, [], RunOutcome.missingTemplate) :=
  unlock_templateMissing fails s cfg ts hts (findIdx?_eq_none_iff_not_mem.mpr habs)

/-- Witness for C8 at a store whose model lacks the qualifying
template. -/
theorem c8_missing_template_guard_witness :
    unlock_audio_cards noFail (Store.mk (some ["Reverse"]) [] [] []) enableAudioConfig =
      (Store.mk (some ["Reverse"]) [] [] [], [], RunOutcome.missingTemplate) :=
  c8_missing_template_guard noFail (Store.mk (some ["Reverse"]) [] [] [])
    enableAudioConfig ["Reverse"] rfl (by decide)

/-- C9: when the deck-scoped note query yields zero identifiers, the
updater returns early and issues zero update calls. -/
theorem c9_empty_deck_guard (fails : Int → Option String) (s : Store) (cfg : Config)
    (ts : List String) (q : Nat) (hts : s.modelTemplates = some ts)
    (hidx : ts.findIdx? (fun t => decide (t = cfg.templateName)) = some q)
    (hdeck : s.deckNoteIds = []) :
    unlock_audio_cards fails s cfg = (s, [], RunOutcome.emptyDeck) :=
  unlock_emptyDeck fails s cfg ts q hts hidx hdeck

/-- Witness for C9 at a store with an empty deck. -/
theorem c9_empty_deck_guard_witness :
    unlock_audio_cards noFail (Store.mk (some ["Word"]) [] [] []) enableAudioConfig =
      (Store.mk (some ["Word"]) [] [] [], [], RunOutcome.emptyDeck) :=
  c9_empty_deck_guard noFail (Store.mk (some ["Word"]) [] [] []) enableAudioConfig
    ["Word"] 0 rfl rfl rfl

/-- C10: with the deck query returning duplicate-free identifiers, the
sequence of note identifiers handed to the update step has no duplicate,
so each selected note receives exactly one remote update call even when
it owns several eligible cards. -/
theorem c10_one_call_per_selected_note (s : Store) (cfg : Config)
    (hnd : s.deckNoteIds.Nodup) :
    (((unlock_audio_cards noFail s cfg).2.1).map (fun c => c.noteId)).Nodup ∧
    (∀ q, qualifyingOrd s cfg = some q → ∀ n ∈ runNotesToUpdate s cfg q,
      (((unlock_audio_cards noFail s cfg).2.1).map (fun c => c.noteId)).count n.noteId
        = 1) := by
  cases hmt : s.modelTemplates with
  | none =>
      rw [unlock_modelMissing noFail s cfg hmt]
      refine ⟨by simp, ?_⟩
      intro q hq
      unfold qualifyingOrd at hq
      rw [hmt] at hq
      exact absurd hq (by simp)
  | some ts =>
      cases hidx : ts.findIdx? (fun t => decide (t = cfg.templateName)) with
      | none =>
          rw [unlock_templateMissing noFail s cfg ts hmt hidx]
          refine ⟨by simp, ?_⟩
          intro q hq
          unfold qualifyingOrd at hq
          rw [hmt, Option.some_bind, hidx] at hq
          exact Option.noConfusion hq
      | some q0 =>
          have hq_eq : ∀ q, qualifyingOrd s cfg = some q → q = q0 := by
            intro q hq
            unfold qualifyingOrd at hq
            rw [hmt, Option.some_bind, hidx] at hq
            exact (Option.some.inj hq).symm
          by_cases hnu : runNotesToUpdate s cfg q0 = []
          · have hempty : ∀ q, qualifyingOrd s cfg = some q →
                ∀ n ∈ runNotesToUpdate s cfg q, False := by
              intro q hq n hn
              rw [hq_eq q hq, hnu] at hn
              exact absurd hn (List.not_mem_nil n)
            by_cases hdeck : s.deckNoteIds = []
            · rw [unlock_emptyDeck noFail s cfg ts q0 hmt hidx hdeck]
              exact ⟨by simp, fun q hq n hn => absurd (hempty q hq n hn) not_false⟩
            · by_cases hmn : modelNotes s cfg = []
              · rw [unlock_noModelNotes noFail s cfg ts q0 hmt hidx hdeck hmn]
                exact ⟨by simp, fun q hq n hn => absurd (hempty q hq n hn) not_false⟩
              · rw [unlock_nothingToDo noFail s cfg ts q0 hmt hidx hmn hnu]
                exact ⟨by simp, fun q hq n hn => absurd (hempty q hq n hn) not_false⟩
          · rw [unlock_noFail_updates s cfg ts q0 hmt hidx hnu]
            dsimp only
            have hids_nodup := runNotesToUpdate_ids_nodup s cfg q0 hnd
            have hmapid : ((((runNotesToUpdate s cfg q0).map (fun n => n.noteId)).map
                (fun i => UpdateCall.mk i cfg.fieldName cfg.newValue)).map
                  (fun c => c.noteId)) =
                (runNotesToUpdate s cfg q0).map (fun n => n.noteId) := by
              rw [List.map_map]
              have hcomp : ((fun c : UpdateCall => c.noteId) ∘
                  (fun i => UpdateCall.mk i cfg.fieldName cfg.newValue)) = id :=
                funext (fun i => rfl)
              rw [hcomp, List.map_id]
            rw [hmapid]
            refine ⟨hids_nodup, ?_⟩
            intro q hq n hn
            rw [hq_eq q hq] at hn
            exact List.count_eq_one_of_mem hids_nodup (List.mem_map.mpr ⟨n, hn, rfl⟩)

/-- Witness for C10: note 10 of the demo store owns two eligible cards
yet receives exactly one update call. -/
theorem c10_one_call_per_selected_note_witness :
    (((unlock_audio_cards noFail demoStore enableAudioConfig).2.1).map
      (fun c => c.noteId)).count (10 : Int) = 1 := by
  have h := (c10_one_call_per_selected_note demoStore enableAudioConfig (by decide)).2
    0 rfl (Note.mk 10 "Words" [("Front", "kot"), ("Audio Enabled", "No")] [100, 101])
    (by decide)
  exact h

end AnkiScripts
